import Mathlib

/-!
Verification of the `simplycall` typed RPC library.

The development shallowly embeds the three source modules:

* `src/index.ts` — the `Router` (registration via
  `on(scope).with(handlers).conformArgumentsThrough(parsers)` and dispatch via
  `routeFromTransportInfallibly`) and the `Client` proxy;
* `src/transports/http/throughFetch.ts` — the client-side HTTP transport
  (`sendThroughTransportFallibly`);
* `src/transports/http/fromFetch.ts` — the server-side HTTP transport
  (`onRequestInfallibly`).

Modelling conventions:

* A JavaScript function call that may `throw` is modelled as `Except E A`
  (`Except.error` = the thrown value).  An `async` function is modelled by the
  value its promise settles with: `Except E A` again (`Except.error` = the
  promise rejects).  A handler, which is called and then awaited, is therefore
  `... → Except E (Except E V)`: the outer layer is a synchronous throw of the
  call itself, the inner layer the settled promise.
* The `this` binding visible to a parser or handler is reduced to the one
  property the library ever installs on it: the value stored under the exported
  `ctx` symbol.  `Option C` is that slot; `none` means the receiver object has
  no `ctx`-symbol property (reading it yields `undefined`).
* `Record<string, T>` objects used as string-keyed maps are modelled as
  association lists holding the *own* properties, looked up with `List.find?`.
  Property access on a plain `{}` additionally traverses the prototype chain:
  the dispatcher models that explicitly — an unregistered identifier that
  names an `Object.prototype` member (`isProtoKey`) finds the truthy inherited
  value, and calling its absent `parser` property throws the host `TypeError`
  (threaded in as the `typeError` parameter).  Identifiers *registered* by the
  library always contain a space, so registration's own-key check coincides
  with the `in` operator there.
* The platform primitives the transports call (`JSON.stringify`, `JSON.parse`,
  `FormData`, `fetch`) are modelled executably below.  The JSON model covers
  numbers on the exactly-serialized integer fragment of IEEE doubles, and
  escapes `"` and `\` in strings (the host additionally escapes control
  characters; on the modelled fragment the two codecs agree).
-/

set_option linter.unusedVariables false

namespace Simplycall

/-- A route entry as stored in `Router.routes` (src/index.ts): a `parser`
mapping the raw positional arguments to validated ones (it may throw), and a
`handler` returning a promise (it may throw synchronously — outer `Except` —
or reject — inner `Except`).  The first argument of each is the `ctx`-symbol
slot of its `this` binding. -/
structure Route (V C E : Type) where
  parser : Option C → List V → Except E (List V)
  handler : Option C → List V → Except E (Except E V)

/-- The call envelope `{ ctx, id, args }` handed to the dispatcher and to the
client transport. -/
structure Rpc (C V : Type) where
  ctx : C
  id : String
  args : List V

/-- The result object produced by `routeFromTransportInfallibly`: `{ ok: value }`
or `{ err: { <kind>: payload } }` with exactly the three failure kinds of
src/index.ts. -/
inductive RouteResult (V E : Type) where
  | ok (value : V)
  | nonExistentRoute (msg : String)
  | argumentParsingFailed (error : E)
  | handlerErrored (error : E)

/-- The *own-property* portion of `this.routes[id]`: the registered route
under `id`, if any.  (Property access also sees `Object.prototype` members;
the dispatcher handles that case via `isProtoKey` below.) -/
def lookupRoute (routes : List (String × Route V C E)) (id : String) :
    Option (Route V C E) :=
  (routes.find? (fun e => e.1 = id)).map (fun e => e.2)

/-- `id in this.routes` — the duplicate check of `conformArgumentsThrough`,
as the own-key check.  (The `in` operator also sees `Object.prototype`
members, but every id this check is applied to has the form
`scope + " " + name` and so contains a space, which no `Object.prototype`
property name does; on those ids the two agree.) -/
def hasRoute (routes : List (String × Route V C E)) (id : String) : Bool :=
  routes.any (fun e => e.1 = id)

/-- The property names a plain `{}` inherits from `Object.prototype`: for
these, `this.routes[id]` yields the truthy inherited member (a function, or
`Object.prototype` itself for `__proto__`) even when no route is registered
under `id`. -/
def isProtoKey (id : String) : Bool :=
  id = "constructor" || id = "hasOwnProperty" || id = "isPrototypeOf"
    || id = "propertyIsEnumerable" || id = "toLocaleString" || id = "toString"
    || id = "valueOf" || id = "__defineGetter__" || id = "__defineSetter__"
    || id = "__lookupGetter__" || id = "__lookupSetter__" || id = "__proto__"

/-- `Router.routeFromTransportInfallibly` (src/index.ts, lines 186–231),
line by line:

* `const route = this.routes[rpc.id]` — a registered route if `rpc.id` is an
  own key; otherwise, for an `Object.prototype` property name, the truthy
  inherited member; otherwise `undefined`;
* `if (!route)` — only the `undefined` case is falsy →
  `{ err: { "non existent route": ... } }`;
* `route.parser(...rpc.args)` — the `this` of this call is the route entry
  object, which has no `ctx`-symbol property, hence the `none` slot — a throw
  is caught and becomes `{ err: { "argument parsing failed": error } }`.  On a
  prototype-chain hit the inherited member has no `parser` property, so this
  call throws the host `TypeError: route.parser is not a function` — the
  `typeError` parameter is that thrown value's representation in the
  thrown-value type `E` — and the `catch` turns it into the same
  `"argument parsing failed"` failure;
* `route.handler.call({ [ctx]: rpc.ctx }, ...args).then(...).catch(...)` —
  a rejected promise becomes `{ err: { "handler errored": err } }`, a resolved
  one `{ ok }`; a *synchronous* throw of the handler call itself is wrapped by
  no `try`/`catch`, so it escapes and the dispatch promise rejects (the outer
  `Except.error`). -/
def routeFromTransportInfallibly (typeError : E)
    (routes : List (String × Route V C E))
    (rpc : Rpc C V) : Except E (RouteResult V E) :=
  match lookupRoute routes rpc.id with
  | none =>
    if isProtoKey rpc.id then
      Except.ok (RouteResult.argumentParsingFailed typeError)
    else
      Except.ok (RouteResult.nonExistentRoute
        ("Route [" ++ rpc.id ++ "] does not exist!"))
  | some route =>
    match route.parser none rpc.args with
    | Except.error e => Except.ok (RouteResult.argumentParsingFailed e)
    | Except.ok args =>
      match route.handler (some rpc.ctx) args with
      | Except.error e => Except.error e
      | Except.ok (Except.error e) => Except.ok (RouteResult.handlerErrored e)
      | Except.ok (Except.ok v) => Except.ok (RouteResult.ok v)

/-- One value of the `parsers` record passed to `conformArgumentsThrough`:
either the `"assume typesafe"` string sentinel or a parsing function. -/
inductive ParserSpec (V C E : Type) where
  | assumeTypesafe
  | custom (p : Option C → List V → Except E (List V))

/-- `parsers[name] === "assume typesafe" ? (...args) => args : parsers[name]`. -/
def resolveParser : ParserSpec V C E → (Option C → List V → Except E (List V))
  | ParserSpec.assumeTypesafe => fun _ args => Except.ok args
  | ParserSpec.custom p => p

/-- The registration loop of `conformArgumentsThrough` (src/index.ts, lines
146–164).  `entries` lists the batch in `Object.keys` order, pairing each name
with its parser value and its handler from the `with(...)` record.  Because the
source mutates `boundThis.routes` in place and aborts by `throw`, the model
returns the registry as left behind together with the optionally thrown error
message. -/
def conformArgumentsThrough (routes : List (String × Route V C E))
    (scope : String)
    (entries : List (String × ParserSpec V C E × (Option C → List V → Except E (Except E V)))) :
    List (String × Route V C E) × Option String :=
  match entries with
  | [] => (routes, none)
  | (name, pspec, h) :: rest =>
    let id := scope ++ " " ++ name
    if hasRoute routes id then
      (routes, some ("Route [" ++ id ++ "] was declared twice and is not unique."))
    else
      conformArgumentsThrough
        (routes ++ [(id, { parser := resolveParser pspec, handler := h })])
        scope rest

/-! ### The JSON model

The transports serialize structured arguments with the host `JSON.stringify`
and read them back with `JSON.parse`.  Both are modelled executably on a JSON
value tree: numbers on the integer fragment (where double serialization is
exact), strings escaping `"` and `\`. -/

/-- A JSON value as produced by `JSON.parse` / consumed by `JSON.stringify`. -/
inductive Json where
  | null
  | bool (b : Bool)
  | num (n : Int)
  | str (s : String)
  | arr (elems : List Json)
  | obj (members : List (String × Json))

/-- The decimal digit character of `d % 10`. -/
def digitChar : Nat → Char
  | 0 => '0'
  | 1 => '1'
  | 2 => '2'
  | 3 => '3'
  | 4 => '4'
  | 5 => '5'
  | 6 => '6'
  | 7 => '7'
  | 8 => '8'
  | 9 => '9'
  | _ + 10 => '*'

/-- Decimal digits of a natural number, most significant first. -/
def natDigits (n : Nat) : List Char :=
  if h : n < 10 then [digitChar n]
  else natDigits (n / 10) ++ [digitChar (n % 10)]
termination_by n
decreasing_by exact Nat.div_lt_self (by omega) (by omega)

/-- Decimal notation of an integer (the exact `JSON.stringify` output on the
integer fragment of IEEE doubles). -/
def intChars (n : Int) : List Char :=
  if n < 0 then '-' :: natDigits n.natAbs else natDigits n.toNat

/-- String-body escaping of `JSON.stringify`: `"` and `\` get a backslash.
(The host also escapes control characters; the modelled parser reads those
unescaped, so the round trip is unaffected.) -/
def escapeChars : List Char → List Char
  | [] => []
  | c :: cs =>
    if c = '"' ∨ c = '\\' then '\\' :: c :: escapeChars cs
    else c :: escapeChars cs

mutual
/-- `JSON.stringify`, to a character list. -/
def serializeJson : Json → List Char
  | Json.null => ['n', 'u', 'l', 'l']
  | Json.bool true => ['t', 'r', 'u', 'e']
  | Json.bool false => ['f', 'a', 'l', 's', 'e']
  | Json.num n => intChars n
  | Json.str s => '"' :: escapeChars s.data ++ ['"']
  | Json.arr elems => '[' :: serializeElems elems ++ [']']
  | Json.obj members => '\x7b' :: serializeMembers members ++ ['\x7d']
/-- Array elements joined by commas. -/
def serializeElems : List Json → List Char
  | [] => []
  | [x] => serializeJson x
  | x :: y :: ys => serializeJson x ++ ',' :: serializeElems (y :: ys)
/-- Object members `"key":value` joined by commas. -/
def serializeMembers : List (String × Json) → List Char
  | [] => []
  | [(k, v)] => '"' :: escapeChars k.data ++ '"' :: ':' :: serializeJson v
  | (k, v) :: m :: ms =>
    '"' :: escapeChars k.data ++ '"' :: ':' :: serializeJson v
      ++ ',' :: serializeMembers (m :: ms)
end

/-- `JSON.stringify` as a `String → String` host primitive. -/
def stringifyJson (j : Json) : String := String.mk (serializeJson j)

/-- Strip an expected literal character sequence off the input. -/
def dropLit : List Char → List Char → Option (List Char)
  | [], l => some l
  | _ :: _, [] => none
  | p :: ps, c :: cs => if c = p then dropLit ps cs else none

/-- Longest digit run at the head of the input, and the remainder. -/
def spanDigits : List Char → List Char × List Char
  | [] => ([], [])
  | c :: cs =>
    if c.isDigit then
      let (ds, r) := spanDigits cs
      (c :: ds, r)
    else ([], c :: cs)

/-- Numeric value of a digit run. -/
def digitsToNat (ds : List Char) : Nat :=
  ds.foldl (fun acc c => acc * 10 + (c.toNat - 48)) 0

/-- String body after the opening quote: characters up to the closing quote,
a backslash taking the next character literally. -/
def parseStringBody : List Char → Option (List Char × List Char)
  | [] => none
  | c :: rest =>
    if c = '"' then some ([], rest)
    else if c = '\\' then
      match rest with
      | [] => none
      | e :: rest2 =>
        (parseStringBody rest2).map (fun sr => (e :: sr.1, sr.2))
    else (parseStringBody rest).map (fun sr => (c :: sr.1, sr.2))

mutual
/-- `JSON.parse`, fuelled: one JSON value off the head of the input, returning
it with the unconsumed remainder. -/
def parseValue : Nat → List Char → Option (Json × List Char)
  | 0, _ => none
  | _ + 1, [] => none
  | fuel + 1, c :: rest =>
    if c = 'n' then
      (dropLit ['u', 'l', 'l'] rest).map (fun r => (Json.null, r))
    else if c = 't' then
      (dropLit ['r', 'u', 'e'] rest).map (fun r => (Json.bool true, r))
    else if c = 'f' then
      (dropLit ['a', 'l', 's', 'e'] rest).map (fun r => (Json.bool false, r))
    else if c = '"' then
      (parseStringBody rest).map (fun sr => (Json.str (String.mk sr.1), sr.2))
    else if c = '-' then
      let sd := spanDigits rest
      if sd.1.isEmpty then none
      else some (Json.num (-(Int.ofNat (digitsToNat sd.1))), sd.2)
    else if c.isDigit then
      let sd := spanDigits (c :: rest)
      some (Json.num (Int.ofNat (digitsToNat sd.1)), sd.2)
    else if c = '[' then
      match rest with
      | [] => none
      | r0 :: rtl =>
        if r0 = ']' then some (Json.arr [], rtl)
        else (parseElems fuel (r0 :: rtl)).map (fun vr => (Json.arr vr.1, vr.2))
    else if c = '\x7b' then
      match rest with
      | [] => none
      | r0 :: rtl =>
        if r0 = '\x7d' then some (Json.obj [], rtl)
        else (parseMembers fuel (r0 :: rtl)).map (fun mr => (Json.obj mr.1, mr.2))
    else none
/-- One or more comma-separated values, terminated by `]`. -/
def parseElems : Nat → List Char → Option (List Json × List Char)
  | 0, _ => none
  | fuel + 1, l =>
    match parseValue fuel l with
    | none => none
    | some (v, r) =>
      match r with
      | ',' :: r2 => (parseElems fuel r2).map (fun vr => (v :: vr.1, vr.2))
      | ']' :: r2 => some ([v], r2)
      | _ => none
/-- One or more comma-separated `"key":value` members, terminated by `}`. -/
def parseMembers : Nat → List Char → Option (List (String × Json) × List Char)
  | 0, _ => none
  | fuel + 1, l =>
    match l with
    | '"' :: rest =>
      match parseStringBody rest with
      | none => none
      | some (k, r) =>
        match r with
        | ':' :: r2 =>
          match parseValue fuel r2 with
          | none => none
          | some (v, r3) =>
            match r3 with
            | ',' :: r4 =>
              (parseMembers fuel r4).map
                (fun mr => ((String.mk k, v) :: mr.1, mr.2))
            | '\x7d' :: r4 => some ([(String.mk k, v)], r4)
            | _ => none
        | _ => none
    | _ => none
end

/-- `JSON.parse` as a host primitive: `none` models a thrown `SyntaxError`.
(The host additionally skips whitespace, which the serializer never emits.) -/
def parseJson (s : String) : Option Json :=
  match parseValue (s.data.length + 1) s.data with
  | some (j, []) => some j
  | _ => none

/-! ### The HTTP transport model

`FormData` holds parts keyed by strings; a part is either a text entry or a
binary blob (a `Blob`/`File`, modelled by its bytes).  `fetch` is a parameter:
the network's answer to the constructed request. -/

/-- A `FormData` entry value: a string, or a `Blob`/`File` given by its bytes. -/
inductive Part where
  | text (s : String)
  | blob (bytes : List Nat)
deriving DecidableEq

/-- `FormData.get`: the first entry under the key, or `null`. -/
def formGet (form : List (String × Part)) (k : String) : Option Part :=
  (form.find? (fun e => e.1 = k)).map (fun e => e.2)

/-- JavaScript truthiness of `FormData.get`'s result: `null` and the empty
string are falsy, every `Blob`/`File` object and nonempty string truthy. -/
def partFalsy : Option Part → Bool
  | none => true
  | some (Part.text s) => s = ""
  | some (Part.blob _) => false

/-- `FormDataEntryValue.toString()`: a text entry is itself; a `File` yields
the useless object tag. -/
def partToString : Part → String
  | Part.text s => s
  | Part.blob _ => "[object File]"

/-- A client-side argument value as constrained by the HTTP transport: a
`Blob`, or any JSON-serializable value. -/
inductive WireValue where
  | blob (bytes : List Nat)
  | data (j : Json)

/-- `arg instanceof Blob ? arg : JSON.stringify(arg)` — the part stored for
one argument (src/transports/http/throughFetch.ts, line 44). -/
def encodeArg : WireValue → Part
  | WireValue.blob bytes => Part.blob bytes
  | WireValue.data j => Part.text (stringifyJson j)

/-- The `argtype` tag pushed for one argument: `b` for a `Blob`, `j` otherwise
(src/transports/http/throughFetch.ts, line 46). -/
def argTag : WireValue → Char
  | WireValue.blob _ => 'b'
  | WireValue.data _ => 'j'

/-- The template-string key `` `${i}` `` of the part at position `i`. -/
def natKey (i : Nat) : String := String.mk (natDigits i)

/-- The multipart body built by the `body.set` loop: one part per argument,
keyed by its zero-based position. -/
def encodeBodyFrom (i : Nat) : List WireValue → List (String × Part)
  | [] => []
  | a :: rest => (natKey i, encodeArg a) :: encodeBodyFrom (i + 1) rest

/-- A thrown JavaScript value at the transport layer. -/
inductive JsError where
  | error (msg : String)
  | syntaxError
deriving DecidableEq

/-- The HTTP request issued by `fetch` in `sendThroughTransportFallibly`
(src/transports/http/throughFetch.ts, lines 41–56): URL, method, the three
headers, and the multipart body. -/
structure HttpRequest where
  url : String
  method : String
  idHeader : String
  argtypeHeader : String
  contentType : String
  body : List (String × Part)

/-- The request as constructed from one envelope: headers carry the identifier
and the concatenated tag string, the body one part per argument. -/
def builtRequest (url : String) (rpc : Rpc C WireValue) : HttpRequest :=
  { url := url
    method := "POST"
    idHeader := rpc.id
    argtypeHeader := String.mk (rpc.args.map argTag)
    contentType := "multipart/form-data"
    body := encodeBodyFrom 0 rpc.args }

/-- The server's HTTP response as read by the client: the
`x-simplycall-argtype` header (`null` when absent) and the result of
`result.formData()` (which may reject). -/
structure FetchResponse where
  argtype : Option String
  formData : Except JsError (List (String × Part))

/-- What the promise returned by `sendThroughTransportFallibly` resolves to. -/
inductive SendOutcome where
  | undefinedValue
  | fromPart (p : Part)
  | fromJson (j : Json)

/-- `sendThroughTransportFallibly` (src/transports/http/throughFetch.ts,
lines 36–71).  The continuation passed to `.then` checks the response tag
header, reads the one part under key `"0"`, and decodes it (pass the
`FormDataEntryValue` through if the tag is `b`, `JSON.parse` its string form
otherwise) — but the source has no `return` in front of
`await fetch(...).then(...)`, so the continuation's value is discarded and the
function resolves `undefined`; only its thrown errors propagate as a
rejection. -/
def sendThroughTransportFallibly (url : String)
    (doFetch : HttpRequest → FetchResponse) (rpc : Rpc C WireValue) :
    Except JsError SendOutcome :=
  let result := doFetch (builtRequest url rpc)
  let continuation : Except JsError SendOutcome :=
    if result.argtype ≠ some "b" ∧ result.argtype ≠ some "j" then
      Except.error (JsError.error
        ("Unable to parse response type [" ++ (result.argtype.getD "null")
          ++ "] for [" ++ rpc.id ++ "]."))
    else
      match result.formData with
      | Except.error e => Except.error e
      | Except.ok form =>
        let response := formGet form "0"
        if partFalsy response then
          Except.error (JsError.error
            ("No response received for [" ++ rpc.id ++ "]."))
        else
          match response with
          | none => Except.error (JsError.error
              ("No response received for [" ++ rpc.id ++ "]."))
          | some p =>
            if result.argtype = some "b" then Except.ok (SendOutcome.fromPart p)
            else
              match parseJson (partToString p) with
              | none => Except.error JsError.syntaxError
              | some j => Except.ok (SendOutcome.fromJson j)
  match continuation with
  | Except.error e => Except.error e
  | Except.ok _ => Except.ok SendOutcome.undefinedValue

/-- An argument pushed by the receive-side decode loop: the raw
`FormDataEntryValue` for a `b` tag, the `JSON.parse` result for a `j` tag. -/
inductive DecodedArg where
  | fromPart (p : Part)
  | fromJson (j : Json)

/-- Outcome of the receive-side decode loop (src/transports/http/fromFetch.ts,
lines 69–89): an error result object, a propagated `JSON.parse` throw, or the
decoded argument list. -/
inductive DecodeOut where
  | unknownArgumentType (msg : String)
  | missingArgument (msg : String)
  | thrown (e : JsError)
  | ok (args : List DecodedArg)

/-- The receive-side decode loop, iterating the tag characters with their
positions: an unrecognized tag or a falsy part aborts with an error result, a
`JSON.parse` throw escapes, otherwise the decoded argument is appended. -/
def decodeArgsFrom (id argtypeFull : String) (form : List (String × Part)) :
    Nat → List Char → DecodeOut
  | _, [] => DecodeOut.ok []
  | i, t :: ts =>
    if t ≠ 'b' ∧ t ≠ 'j' then
      DecodeOut.unknownArgumentType
        ("Route [" ++ id ++ "] called with unknown argument type of ["
          ++ argtypeFull ++ "].")
    else
      let data := formGet form (natKey i)
      if partFalsy data then
        DecodeOut.missingArgument
          ("Route [" ++ id ++ "] is missing [" ++ String.mk [t]
            ++ "] type argument at position [" ++ natKey i ++ "].")
      else
        match data with
        | none =>
          DecodeOut.missingArgument
            ("Route [" ++ id ++ "] is missing [" ++ String.mk [t]
              ++ "] type argument at position [" ++ natKey i ++ "].")
        | some p =>
          if t = 'b' then
            match decodeArgsFrom id argtypeFull form (i + 1) ts with
            | DecodeOut.ok args => DecodeOut.ok (DecodedArg.fromPart p :: args)
            | other => other
          else
            match parseJson (partToString p) with
            | none => DecodeOut.thrown JsError.syntaxError
            | some j =>
              match decodeArgsFrom id argtypeFull form (i + 1) ts with
              | DecodeOut.ok args => DecodeOut.ok (DecodedArg.fromJson j :: args)
              | other => other

/-- What the router handed to the receive side answers with: the dispatch
result object `{ err }` or `{ ok }`, the ok value constrained by this
transport to a `Blob` or a JSON-serializable value. -/
inductive DispatchAnswer (E : Type) where
  | err (e : E)
  | ok (v : WireValue)

/-- The incoming `Request` as read by `onRequestInfallibly`: the two headers
(`null` when absent) and the result of `request.formData()`. -/
structure ServerRequest where
  idHeader : Option String
  argtypeHeader : Option String
  formData : Except JsError (List (String × Part))

/-- The result object of `onRequestInfallibly`: one of the receive-side error
results, the dispatch's error object passed through unchanged, or the
ready-to-send response body and headers. -/
inductive OnRequestResult (E : Type) where
  | errIdNotProvided
  | errUntyped
  | errFormData (e : JsError)
  | errUnknownArgumentType (msg : String)
  | errMissingArgument (msg : String)
  | errDispatch (e : E)
  | okResponse (body : List (String × Part)) (headers : List (String × String))

/-- `onRequestInfallibly` (src/transports/http/fromFetch.ts, lines 46–120):
check the two headers, parse the form data (a failure is returned as-is),
decode the arguments per tag, dispatch, and on success wrap the value into a
one-part body plus mirroring tag header.  A `JSON.parse` throw inside the
decode loop is caught by nothing, so it rejects the whole call (the outer
`Except.error`). -/
def onRequestInfallibly (route : C → String → List DecodedArg → DispatchAnswer E)
    (request : ServerRequest) (ctxValue : C) :
    Except JsError (OnRequestResult E) :=
  match request.idHeader with
  | none => Except.ok OnRequestResult.errIdNotProvided
  | some id =>
    match request.argtypeHeader with
    | none => Except.ok OnRequestResult.errUntyped
    | some argtype =>
      match request.formData with
      | Except.error e => Except.ok (OnRequestResult.errFormData e)
      | Except.ok form =>
        match decodeArgsFrom id argtype form 0 argtype.data with
        | DecodeOut.unknownArgumentType m =>
          Except.ok (OnRequestResult.errUnknownArgumentType m)
        | DecodeOut.missingArgument m =>
          Except.ok (OnRequestResult.errMissingArgument m)
        | DecodeOut.thrown e => Except.error e
        | DecodeOut.ok args =>
          match route ctxValue id args with
          | DispatchAnswer.err e => Except.ok (OnRequestResult.errDispatch e)
          | DispatchAnswer.ok v =>
            Except.ok (OnRequestResult.okResponse
              [("0", encodeArg v)]
              [("x-simplycall-argtype", String.mk [argTag v]),
               ("Content-Type", "multipart/form-data")])

/-! ### Auxiliary definitions for the statements and proofs -/

/-- Whether the input starts with a decimal digit (used to delimit a
serialized number from what follows it). -/
def headIsDigit : List Char → Bool
  | [] => false
  | c :: _ => c.isDigit

/-- The characters a serialized JSON value can start with. -/
def isValueStart (c : Char) : Bool :=
  c = 'n' || c = 't' || c = 'f' || c = '"' || c = '-' || c.isDigit
    || c = '[' || c = '\x7b'

/-- The argument the receive side reconstructs for one sent argument: the
blob passed through for a `b` tag, the parsed JSON value for a `j` tag. -/
def decodedOf : WireValue → DecodedArg
  | WireValue.blob bytes => DecodedArg.fromPart (Part.blob bytes)
  | WireValue.data j => DecodedArg.fromJson j

/-! ### Concrete fixtures used by counterexamples and witnesses -/

/-- A registry with one route `"s r"` whose handler throws *synchronously*
(outer `Except.error`) instead of returning a rejected promise. -/
def syncThrowRegistry : List (String × Route Nat Unit String) :=
  [("s r",
    { parser := fun _ args => Except.ok args
      handler := fun _ _ => Except.error "sync throw" })]

/-- The registry of the spec's §8 scenario, built through the registration
path itself: scope `"s"`, name `"r"`, identity parser, handler resolving
`42`. -/
def scenarioRegistry : List (String × Route Nat Unit String) :=
  (conformArgumentsThrough [] "s"
    [("r", ParserSpec.assumeTypesafe, fun _ _ => Except.ok (Except.ok 42))]).1

/-- A registry whose parser reports the `ctx` slot of its `this` binding
(route values are `Option Nat` so the parser can echo the slot), and whose
handler echoes its first argument. -/
def ctxProbeRegistry : List (String × Route (Option Nat) Nat String) :=
  [("s r",
    { parser := fun slot _ => Except.ok [slot]
      handler := fun _ args => Except.ok (Except.ok (args.headD none)) })]

/-- A network answering every request with a structured `42` response. -/
def answer42 : HttpRequest → FetchResponse :=
  fun _ => { argtype := some "j", formData := Except.ok [("0", Part.text "42")] }

/-- A registry with one route `"s r"` whose parser always throws `"bad args"`. -/
def failParserRegistry : List (String × Route Nat Unit String) :=
  [("s r",
    { parser := fun _ _ => Except.error "bad args"
      handler := fun _ _ => Except.ok (Except.ok 7) })]

/-- A registry with one route `"s r"` whose handler returns a rejected
promise carrying `"boom"`. -/
def rejectRegistry : List (String × Route Nat Unit String) :=
  [("s r",
    { parser := fun _ args => Except.ok args
      handler := fun _ _ => Except.ok (Except.error "boom") })]

/-- A dispatch function answering every call with a structured `1`. -/
def constRoute : Unit → String → List DecodedArg → DispatchAnswer String :=
  fun _ _ _ => DispatchAnswer.ok (WireValue.data (Json.num 1))

/-! ## Lemmas

### The decimal digit codec -/

theorem digitChar_isDigit {d : Nat} (h : d < 10) : (digitChar d).isDigit = true := by
  interval_cases d <;> decide

theorem digitChar_toNat {d : Nat} (h : d < 10) : (digitChar d).toNat - 48 = d := by
  interval_cases d <;> decide

theorem natDigits_ne_nil (n : Nat) : natDigits n ≠ [] := by
  rw [natDigits]
  split
  · simp
  · simp

theorem natDigits_all_digits (n : Nat) : ∀ c ∈ natDigits n, c.isDigit = true := by
  induction n using Nat.strong_induction_on with
  | _ n ih =>
    rw [natDigits]
    split
    · next h =>
      intro c hc
      rw [List.mem_singleton] at hc
      subst hc
      exact digitChar_isDigit h
    · next h =>
      intro c hc
      rw [List.mem_append] at hc
      rcases hc with hc | hc
      · exact ih (n / 10) (Nat.div_lt_self (by omega) (by omega)) c hc
      · rw [List.mem_singleton] at hc
        subst hc
        exact digitChar_isDigit (Nat.mod_lt _ (by omega))

theorem digitsToNat_append_one (l : List Char) (c : Char) :
    digitsToNat (l ++ [c]) = digitsToNat l * 10 + (c.toNat - 48) := by
  simp [digitsToNat, List.foldl_append]

theorem digitsToNat_natDigits (n : Nat) : digitsToNat (natDigits n) = n := by
  induction n using Nat.strong_induction_on with
  | _ n ih =>
    rw [natDigits]
    split
    · next h =>
      show digitsToNat ([] ++ [digitChar n]) = n
      rw [digitsToNat_append_one, digitChar_toNat h]
      simp [digitsToNat]
    · next h =>
      rw [digitsToNat_append_one, ih (n / 10) (Nat.div_lt_self (by omega) (by omega)),
        digitChar_toNat (Nat.mod_lt _ (by omega))]
      omega

theorem string_mk_data (s : String) : String.mk s.data = s := by
  cases s
  rfl

theorem natKey_injective {i j : Nat} (h : natKey i = natKey j) : i = j := by
  have hd : natDigits i = natDigits j := congrArg String.data h
  have := congrArg digitsToNat hd
  rwa [digitsToNat_natDigits, digitsToNat_natDigits] at this

/-! ### Scanning helpers -/

theorem dropLit_append (p rest : List Char) : dropLit p (p ++ rest) = some rest := by
  induction p with
  | nil => rfl
  | cons c cs ih => simp [dropLit, ih]

theorem spanDigits_not_head {l : List Char} (h : headIsDigit l = false) :
    spanDigits l = ([], l) := by
  cases l with
  | nil => rfl
  | cons c cs =>
    rw [headIsDigit] at h
    simp [spanDigits, h]

theorem spanDigits_append {ds rest : List Char} (hds : ∀ c ∈ ds, c.isDigit = true)
    (hr : headIsDigit rest = false) : spanDigits (ds ++ rest) = (ds, rest) := by
  induction ds with
  | nil => simpa using spanDigits_not_head hr
  | cons d ds ih =>
    have hd : d.isDigit = true := hds d (List.mem_cons_self d ds)
    have ihr := ih (fun c hc => hds c (List.mem_cons_of_mem d hc))
    simp [spanDigits, hd, ihr]

theorem parseStringBody_escape (l rest : List Char) :
    parseStringBody (escapeChars l ++ '"' :: rest) = some (l, rest) := by
  induction l with
  | nil => rw [escapeChars, List.nil_append, parseStringBody.eq_def]; simp
  | cons c cs ih =>
    by_cases hc : c = '"' ∨ c = '\\'
    · simp only [escapeChars, if_pos hc, List.cons_append]
      rw [parseStringBody.eq_def]
      simp [ih]
    · simp only [escapeChars, if_neg hc]
      push_neg at hc
      rw [List.cons_append, parseStringBody.eq_def]
      simp [hc.1, hc.2, ih]

/-! ### Head characters of serialized values -/

theorem isDigit_ne {c : Char} (h : c.isDigit = true) (d : Char)
    (hd : d.isDigit = false) : c ≠ d := by
  intro he
  subst he
  rw [h] at hd
  cases hd

theorem natDigits_head (n : Nat) :
    ∃ d ds, natDigits n = d :: ds ∧ d.isDigit = true := by
  cases hnd : natDigits n with
  | nil => exact absurd hnd (natDigits_ne_nil n)
  | cons d ds =>
    exact ⟨d, ds, rfl, natDigits_all_digits n d (hnd ▸ List.mem_cons_self d ds)⟩

theorem serializeJson_head (v : Json) :
    ∃ c cs, serializeJson v = c :: cs ∧ isValueStart c = true := by
  cases v with
  | null => exact ⟨'n', _, rfl, by decide⟩
  | bool b => cases b
              · exact ⟨'f', _, rfl, by decide⟩
              · exact ⟨'t', _, rfl, by decide⟩
  | num n =>
    show ∃ c cs, intChars n = c :: cs ∧ isValueStart c = true
    rw [intChars]
    split
    · exact ⟨'-', _, rfl, by decide⟩
    · obtain ⟨d, ds, hds, hd⟩ := natDigits_head n.toNat
      exact ⟨d, ds, hds, by simp [isValueStart, hd]⟩
  | str s => exact ⟨'"', _, rfl, by decide⟩
  | arr elems => exact ⟨'[', _, rfl, by decide⟩
  | obj members => exact ⟨'\x7b', _, rfl, by decide⟩

theorem serializeJson_ne_nil (v : Json) : serializeJson v ≠ [] := by
  obtain ⟨c, cs, h, _⟩ := serializeJson_head v
  simp [h]

theorem serializeElems_head (x : Json) (xs : List Json) :
    ∃ c cs, serializeElems (x :: xs) = c :: cs ∧ isValueStart c = true := by
  obtain ⟨c, cs, hx, hc⟩ := serializeJson_head x
  cases xs with
  | nil => exact ⟨c, cs, by rw [serializeElems, hx], hc⟩
  | cons y ys =>
    exact ⟨c, cs ++ ',' :: serializeElems (y :: ys), by rw [serializeElems, hx]; rfl, hc⟩

theorem isValueStart_ne_close {c : Char} (h : isValueStart c = true) :
    c ≠ ']' ∧ c ≠ '\x7d' := by
  simp only [isValueStart, Bool.or_eq_true, decide_eq_true_eq] at h
  rcases h with ((((((h | h) | h) | h) | h) | h) | h) | h
  all_goals first
    | (subst h; exact ⟨by decide, by decide⟩)
    | (exact ⟨isDigit_ne h _ (by decide), isDigit_ne h _ (by decide)⟩)

theorem stringifyJson_ne_empty (v : Json) : stringifyJson v ≠ "" := by
  intro h
  have hd := congrArg String.data h
  simp only [stringifyJson] at hd
  exact serializeJson_ne_nil v hd

/-! ### JSON codec round trip -/

mutual

theorem rt_val : ∀ (v : Json) (fuel : Nat) (rest : List Char),
    (serializeJson v).length < fuel → headIsDigit rest = false →
    parseValue fuel (serializeJson v ++ rest) = some (v, rest)
  | v, 0, rest, hf, hr => absurd hf (Nat.not_lt_zero _)
  | Json.null, f + 1, rest, hf, hr => by
    simp [serializeJson, parseValue, dropLit]
  | Json.bool b, f + 1, rest, hf, hr => by
    cases b <;> simp [serializeJson, parseValue, dropLit]
  | Json.num n, f + 1, rest, hf, hr => by
    by_cases hneg : n < 0
    · obtain ⟨d, ds, hds, hd⟩ := natDigits_head n.natAbs
      have hspan : spanDigits (natDigits n.natAbs ++ rest) = (natDigits n.natAbs, rest) :=
        spanDigits_append (natDigits_all_digits _) hr
      have hemp : (natDigits n.natAbs).isEmpty = false := by
        rw [hds]
        rfl
      have hback : -((digitsToNat (natDigits n.natAbs) : Nat) : Int) = n := by
        rw [digitsToNat_natDigits]
        omega
      have hser : serializeJson (Json.num n) = '-' :: natDigits n.natAbs := by
        show intChars n = _
        rw [intChars, if_pos hneg]
      rw [hser, List.cons_append, parseValue.eq_def]
      simp [hspan, hemp, hback]
    · have hser : serializeJson (Json.num n) = natDigits n.toNat := by
        show intChars n = _
        rw [intChars, if_neg hneg]
      obtain ⟨d, ds, hds, hd⟩ := natDigits_head n.toNat
      have hspan : spanDigits (d :: (ds ++ rest)) = (d :: ds, rest) := by
        rw [← List.cons_append]
        exact spanDigits_append (fun c hc => natDigits_all_digits _ c (hds ▸ hc)) hr
      have hback : ((digitsToNat (d :: ds) : Nat) : Int) = n := by
        rw [← hds, digitsToNat_natDigits]
        omega
      rw [hser, hds, List.cons_append, parseValue.eq_def]
      simp [isDigit_ne hd 'n' (by decide), isDigit_ne hd 't' (by decide),
        isDigit_ne hd 'f' (by decide), isDigit_ne hd '"' (by decide),
        isDigit_ne hd '-' (by decide), hd, hspan, hback]
  | Json.str s, f + 1, rest, hf, hr => by
    have hshape : serializeJson (Json.str s) ++ rest
        = '"' :: (escapeChars s.data ++ '"' :: rest) := by
      simp [serializeJson]
    rw [hshape, parseValue.eq_def]
    simp [parseStringBody_escape, string_mk_data]
  | Json.arr [], f + 1, rest, hf, hr => by
    simp [serializeJson, serializeElems, parseValue]
  | Json.arr (x :: xs), f + 1, rest, hf, hr => by
    obtain ⟨c0, cs0, hse, hc0⟩ := serializeElems_head x xs
    have hc0ne := (isValueStart_ne_close hc0).1
    have hflen : (serializeElems (x :: xs)).length + 1 < f := by
      simp only [serializeJson, List.length_cons, List.length_append,
        List.length_singleton] at hf
      omega
    have helems : parseElems f (c0 :: (cs0 ++ ']' :: rest)) = some (x :: xs, rest) := by
      rw [← List.cons_append, ← hse]
      exact rt_elems x xs f rest hflen
    have hshape : serializeJson (Json.arr (x :: xs)) ++ rest
        = '[' :: (c0 :: (cs0 ++ ']' :: rest)) := by
      simp [serializeJson, hse]
    rw [hshape, parseValue.eq_def]
    simp [hc0ne, helems]
  | Json.obj [], f + 1, rest, hf, hr => by
    simp [serializeJson, serializeMembers, parseValue]
  | Json.obj ((k, v) :: ms), f + 1, rest, hf, hr => by
    have hflen : (serializeMembers ((k, v) :: ms)).length + 1 < f := by
      simp only [serializeJson, List.length_cons, List.length_append,
        List.length_singleton] at hf
      omega
    have hmem : parseMembers f (serializeMembers ((k, v) :: ms) ++ '\x7d' :: rest)
        = some ((k, v) :: ms, rest) := rt_members k v ms f rest hflen
    have hshape : serializeJson (Json.obj ((k, v) :: ms)) ++ rest
        = '\x7b' :: (serializeMembers ((k, v) :: ms) ++ '\x7d' :: rest) := by
      simp [serializeJson]
    have hhead : ∃ cs1, serializeMembers ((k, v) :: ms) = '"' :: cs1 := by
      cases ms with
      | nil => exact ⟨_, rfl⟩
      | cons m2 ms2 => exact ⟨_, rfl⟩
    obtain ⟨cs1, hsm⟩ := hhead
    rw [hsm, List.cons_append] at hmem
    rw [hshape, hsm, List.cons_append, parseValue.eq_def]
    simp [hmem]
termination_by v fuel rest hf hr => sizeOf v
decreasing_by
  all_goals simp_wf
  all_goals omega

theorem rt_elems : ∀ (x : Json) (xs : List Json) (fuel : Nat) (rest : List Char),
    (serializeElems (x :: xs)).length + 1 < fuel →
    parseElems fuel (serializeElems (x :: xs) ++ ']' :: rest) = some (x :: xs, rest)
  | x, xs, 0, rest, hf => absurd hf (Nat.not_lt_zero _)
  | x, [], f + 1, rest, hf => by
    have hlen : (serializeJson x).length < f := by
      simp only [serializeElems] at hf
      omega
    have hv := rt_val x f (']' :: rest) hlen (by rw [headIsDigit]; decide)
    simp only [serializeElems]
    rw [parseElems.eq_def]
    simp [hv]
  | x, y :: ys, f + 1, rest, hf => by
    have hxpos : 0 < (serializeJson x).length :=
      List.length_pos.mpr (serializeJson_ne_nil x)
    have hlen : (serializeJson x).length + 1 + (serializeElems (y :: ys)).length + 1
        < f + 1 := by
      simp only [serializeElems, List.length_append, List.length_cons] at hf
      omega
    have hv := rt_val x f (',' :: (serializeElems (y :: ys) ++ ']' :: rest))
      (by omega) (by rw [headIsDigit]; decide)
    have hrec := rt_elems y ys f rest (by omega)
    have hshape : serializeElems (x :: y :: ys) ++ ']' :: rest
        = serializeJson x ++ (',' :: (serializeElems (y :: ys) ++ ']' :: rest)) := by
      simp only [serializeElems]
      simp
    rw [hshape, parseElems.eq_def]
    simp [hv, hrec]
termination_by x xs fuel rest hf => 1 + sizeOf x + sizeOf xs
decreasing_by
  all_goals simp_wf
  all_goals omega

theorem rt_members : ∀ (k : String) (v : Json) (ms : List (String × Json)) (fuel : Nat)
    (rest : List Char),
    (serializeMembers ((k, v) :: ms)).length + 1 < fuel →
    parseMembers fuel (serializeMembers ((k, v) :: ms) ++ '\x7d' :: rest)
      = some ((k, v) :: ms, rest)
  | k, v, ms, 0, rest, hf => absurd hf (Nat.not_lt_zero _)
  | k, v, [], f + 1, rest, hf => by
    have hlen : (serializeJson v).length < f := by
      simp only [serializeMembers, List.length_append, List.length_cons] at hf
      omega
    have hv := rt_val v f ('\x7d' :: rest) hlen (by rw [headIsDigit]; decide)
    have hshape : serializeMembers [(k, v)] ++ '\x7d' :: rest
        = '"' :: (escapeChars k.data ++ '"' :: (':' :: (serializeJson v ++ '\x7d' :: rest))) := by
      simp only [serializeMembers]
      simp
    rw [hshape, parseMembers.eq_def]
    simp [parseStringBody_escape, hv, string_mk_data]
  | k, v, (k2, v2) :: ms2, f + 1, rest, hf => by
    have hvpos : 0 < (serializeJson v).length :=
      List.length_pos.mpr (serializeJson_ne_nil v)
    have hlen : (serializeJson v).length + 1
        + (serializeMembers ((k2, v2) :: ms2)).length < f + 1 := by
      simp only [serializeMembers, List.length_append, List.length_cons] at hf
      omega
    have hv := rt_val v f
      (',' :: (serializeMembers ((k2, v2) :: ms2) ++ '\x7d' :: rest))
      (by omega) (by rw [headIsDigit]; decide)
    have hrec := rt_members k2 v2 ms2 f rest (by omega)
    have hshape : serializeMembers ((k, v) :: (k2, v2) :: ms2) ++ '\x7d' :: rest
        = '"' :: (escapeChars k.data ++ '"' :: (':' :: (serializeJson v
            ++ ',' :: (serializeMembers ((k2, v2) :: ms2) ++ '\x7d' :: rest)))) := by
      simp only [serializeMembers]
      simp
    rw [hshape, parseMembers.eq_def]
    simp [parseStringBody_escape, hv, hrec, string_mk_data]
termination_by k v ms fuel rest hf => 1 + sizeOf v + sizeOf ms
decreasing_by
  all_goals simp_wf
  all_goals omega

end

/-- The modelled host codec round trip: `JSON.parse (JSON.stringify v)`
recovers `v` for every modelled JSON value. -/
theorem parseJson_stringifyJson (v : Json) : parseJson (stringifyJson v) = some v := by
  have h := rt_val v ((serializeJson v).length + 1) [] (Nat.lt_succ_self _) rfl
  rw [List.append_nil] at h
  simp [parseJson, stringifyJson, h]

/-! ### Transport lemmas -/

theorem formGet_encodeBodyFrom : ∀ (args : List WireValue) (i k : Nat),
    formGet (encodeBodyFrom i args) (natKey (i + k)) = (args[k]?).map encodeArg
  | [], i, k => by simp [encodeBodyFrom, formGet]
  | a :: rest, i, k => by
    cases k with
    | zero => simp [encodeBodyFrom, formGet, List.find?]
    | succ k' =>
      have hne : (natKey i = natKey (i + 1 + k')) = False := by
        simp only [eq_iff_iff, iff_false]
        intro h
        have := natKey_injective h
        omega
      have ih := formGet_encodeBodyFrom rest (i + 1) k'
      rw [show i + (k' + 1) = (i + 1) + k' by omega]
      simp only [encodeBodyFrom, formGet, List.find?, hne, decide_False] at ih ⊢
      simpa using ih

theorem decode_encoded : ∀ (args : List WireValue) (form : List (String × Part))
    (i : Nat) (id full : String),
    (∀ k, formGet form (natKey (i + k)) = (args[k]?).map encodeArg) →
    decodeArgsFrom id full form i (args.map argTag) = DecodeOut.ok (args.map decodedOf)
  | [], form, i, id, full, H => by simp [decodeArgsFrom]
  | a :: rest, form, i, id, full, H => by
    have h0 := H 0
    rw [Nat.add_zero] at h0
    have Hrest : ∀ k, formGet form (natKey ((i + 1) + k)) = (rest[k]?).map encodeArg := by
      intro k
      have := H (k + 1)
      rw [show i + (k + 1) = (i + 1) + k by omega] at this
      simpa using this
    have ih := decode_encoded rest form (i + 1) id full Hrest
    cases a with
    | blob bytes =>
      have hget : formGet form (natKey i) = some (Part.blob bytes) := by
        simpa [encodeArg] using h0
      simp [decodeArgsFrom, argTag, hget, partFalsy, ih, decodedOf]
    | data j =>
      have hget : formGet form (natKey i) = some (Part.text (stringifyJson j)) := by
        simpa [encodeArg] using h0
      have hfalsy : partFalsy (some (Part.text (stringifyJson j))) = false := by
        simp [partFalsy, stringifyJson_ne_empty j]
      simp [decodeArgsFrom, argTag, hget, hfalsy, partToString,
        parseJson_stringifyJson, ih, decodedOf]

theorem decodeArgsFrom_congr : ∀ (ts : List Char) (i : Nat)
    (form1 form2 : List (String × Part)) (id full : String),
    (∀ k, k < ts.length → formGet form1 (natKey (i + k)) = formGet form2 (natKey (i + k))) →
    decodeArgsFrom id full form1 i ts = decodeArgsFrom id full form2 i ts
  | [], i, form1, form2, id, full, H => rfl
  | t :: ts, i, form1, form2, id, full, H => by
    have h0 : formGet form1 (natKey i) = formGet form2 (natKey i) := by
      have := H 0 (by simp)
      rwa [Nat.add_zero] at this
    have ih := decodeArgsFrom_congr ts (i + 1) form1 form2 id full (fun k hk => by
      have := H (k + 1) (by simpa using Nat.succ_lt_succ hk)
      rwa [show i + (k + 1) = (i + 1) + k by omega] at this)
    simp only [decodeArgsFrom, h0, ih]

theorem formGet_append_of_ne (form extra : List (String × Part)) (key : String)
    (h : ∀ e ∈ extra, e.1 ≠ key) :
    formGet (form ++ extra) key = formGet form key := by
  unfold formGet
  rw [List.find?_append]
  have hnone : extra.find? (fun e => e.1 = key) = none := by
    rw [List.find?_eq_none]
    intro e he
    simp [h e he]
  rw [hnone]
  cases form.find? (fun e => e.1 = key) <;> rfl

theorem decode_ok_length : ∀ (ts : List Char) (i : Nat) (form : List (String × Part))
    (id full : String) (args : List DecodedArg),
    decodeArgsFrom id full form i ts = DecodeOut.ok args → args.length = ts.length
  | [], i, form, id, full, args => by
    intro h
    simp only [decodeArgsFrom] at h
    cases h
    rfl
  | t :: ts, i, form, id, full, args => by
    intro h
    cases hrec : decodeArgsFrom id full form (i + 1) ts with
    | ok args' =>
      have hlen := decode_ok_length ts (i + 1) form id full args' hrec
      simp only [decodeArgsFrom, hrec] at h
      split at h
      · exact DecodeOut.noConfusion h
      · split at h
        · exact DecodeOut.noConfusion h
        · split at h
          · exact DecodeOut.noConfusion h
          · split at h
            · cases h
              simp [hlen]
            · split at h
              · exact DecodeOut.noConfusion h
              · cases h
                simp [hlen]
    | unknownArgumentType m =>
      simp only [decodeArgsFrom, hrec] at h
      repeat' split at h
      all_goals exact DecodeOut.noConfusion h
    | missingArgument m =>
      simp only [decodeArgsFrom, hrec] at h
      repeat' split at h
      all_goals exact DecodeOut.noConfusion h
    | thrown e =>
      simp only [decodeArgsFrom, hrec] at h
      repeat' split at h
      all_goals exact DecodeOut.noConfusion h

/-! ### Registration and dispatch lemmas -/

theorem conform_extends {V C E : Type} :
    ∀ (entries : List (String × ParserSpec V C E
        × (Option C → List V → Except E (Except E V))))
      (routes : List (String × Route V C E)) (scope : String),
    ∃ added, (conformArgumentsThrough routes scope entries).1 = routes ++ added
  | [], routes, scope => ⟨[], by simp [conformArgumentsThrough]⟩
  | (name, ps, h) :: rest, routes, scope => by
    simp only [conformArgumentsThrough]
    split
    · exact ⟨[], by simp⟩
    · obtain ⟨added, ha⟩ := conform_extends rest
        (routes ++ [(scope ++ " " ++ name,
          { parser := resolveParser ps, handler := h })]) scope
      exact ⟨_, by rw [ha, List.append_assoc]⟩

theorem conform_abort {V C E : Type} :
    ∀ (pre : List (String × ParserSpec V C E
        × (Option C → List V → Except E (Except E V))))
      (routes : List (String × Route V C E)) (scope name : String) (ps) (h) (post),
    (conformArgumentsThrough routes scope pre).2 = none →
    hasRoute (conformArgumentsThrough routes scope pre).1 (scope ++ " " ++ name) = true →
    conformArgumentsThrough routes scope (pre ++ (name, ps, h) :: post)
      = ((conformArgumentsThrough routes scope pre).1,
         some ("Route [" ++ (scope ++ " " ++ name)
           ++ "] was declared twice and is not unique."))
  | [], routes, scope, name, ps, h, post, hok, hdup => by
    simp only [conformArgumentsThrough, List.nil_append] at hdup ⊢
    rw [if_pos hdup]
  | (n2, ps2, h2) :: pre2, routes, scope, name, ps, h, post, hok, hdup => by
    simp only [conformArgumentsThrough] at hok hdup ⊢
    split at hok
    · exact Option.noConfusion hok
    · next hnd =>
      rw [if_neg hnd] at hdup
      rw [if_neg hnd, if_neg hnd]
      exact conform_abort pre2 _ scope name ps h post hok hdup

theorem lookupRoute_mem {V C E : Type} {routes : List (String × Route V C E)}
    {id : String} {route : Route V C E}
    (h : lookupRoute routes id = some route) : ∃ k, (k, route) ∈ routes := by
  unfold lookupRoute at h
  cases hf : routes.find? (fun e => e.1 = id) with
  | none => rw [hf] at h; cases h
  | some e =>
    rw [hf] at h
    have h2 : e.2 = route := Option.some.inj h
    subst h2
    exact ⟨e.1, by simpa using List.mem_of_find?_eq_some hf⟩

/-! ## Claims -/

/-- **C1, counterexample.**  The claim says dispatch never raises, *including*
when the registered handler throws synchronously instead of returning a
rejected promise.  On the code this fails: the handler call is wrapped in no
`try`/`catch` (only its returned promise gets `.then`/`.catch`), so a
synchronous throw rejects the dispatch promise instead of resolving to a
`"handler errored"` result. -/
theorem c1_counterexample :
    routeFromTransportInfallibly "TypeError" syncThrowRegistry
      { ctx := (), id := "s r", args := ([] : List Nat) } = Except.error "sync throw"
    ∧ ¬ ∃ r, routeFromTransportInfallibly "TypeError" syncThrowRegistry
      { ctx := (), id := "s r", args := ([] : List Nat) } = Except.ok r := by
  have h1 : routeFromTransportInfallibly "TypeError" syncThrowRegistry
      { ctx := (), id := "s r", args := ([] : List Nat) }
      = Except.error "sync throw" := rfl
  refine ⟨h1, ?_⟩
  rintro ⟨r, hr⟩
  rw [h1] at hr
  exact Except.noConfusion hr

/-- **C1, amended.**  For every call envelope, provided every registered
handler returns its promise (possibly rejected) rather than throwing
synchronously, `routeFromTransportInfallibly` never raises: it resolves to
`{ ok }` or to a failure of exactly one of the three kinds. -/
theorem c1_amended {V C E : Type} (typeError : E)
    (routes : List (String × Route V C E)) (rpc : Rpc C V)
    (hsync : ∀ e ∈ routes, ∀ slot args, ∃ p, (e.2).handler slot args = Except.ok p) :
    ∃ r, routeFromTransportInfallibly typeError routes rpc = Except.ok r := by
  cases hl : lookupRoute routes rpc.id with
  | none =>
    by_cases hpk : isProtoKey rpc.id = true
    · exact ⟨RouteResult.argumentParsingFailed typeError,
        by simp [routeFromTransportInfallibly, hl, hpk]⟩
    · exact ⟨RouteResult.nonExistentRoute ("Route [" ++ rpc.id ++ "] does not exist!"),
        by simp [routeFromTransportInfallibly, hl, hpk]⟩
  | some route =>
    cases hp : route.parser none rpc.args with
    | error e =>
      exact ⟨RouteResult.argumentParsingFailed e,
        by simp [routeFromTransportInfallibly, hl, hp]⟩
    | ok args =>
      obtain ⟨k, hk⟩ := lookupRoute_mem hl
      obtain ⟨p, hp2⟩ := hsync (k, route) hk (some rpc.ctx) args
      have hp3 : route.handler (some rpc.ctx) args = Except.ok p := hp2
      cases p with
      | error e =>
        exact ⟨RouteResult.handlerErrored e,
          by simp [routeFromTransportInfallibly, hl, hp, hp3]⟩
      | ok v =>
        exact ⟨RouteResult.ok v, by simp [routeFromTransportInfallibly, hl, hp, hp3]⟩

/-- Witness for the amended C1 at the spec's scenario registry. -/
theorem c1_amended_witness :
    ∃ r, routeFromTransportInfallibly "TypeError" scenarioRegistry
      { ctx := (), id := "s r", args := ([] : List Nat) } = Except.ok r := by
  apply c1_amended
  intro e he slot args
  have hreg : scenarioRegistry
      = [("s r",
          { parser := fun _ args => Except.ok args
            handler := fun _ _ => Except.ok (Except.ok 42) })] := rfl
  rw [hreg] at he
  rw [List.mem_singleton] at he
  subst he
  exact ⟨Except.ok 42, rfl⟩

/-- **C2, code evaluation.**  A successful call — route `"s r"`, empty
arguments, the network answering a structured `42` — resolves to `undefined`:
the source lacks a `return` in front of `await fetch(...).then(...)`, so the
decoded response value is discarded, where spec and docstring promise the
decoded value. -/
theorem c2_code_evaluation :
    sendThroughTransportFallibly "https://rpc" answer42
      { ctx := (), id := "s r", args := ([] : List WireValue) }
      = Except.ok SendOutcome.undefinedValue
    ∧ (Except.ok SendOutcome.undefinedValue
        : Except JsError SendOutcome)
      ≠ Except.ok (SendOutcome.fromJson (Json.num 42)) := by
  refine ⟨rfl, ?_⟩
  intro h
  have h2 := Except.ok.inj h
  exact SendOutcome.noConfusion h2

/-- **C3, code evaluation.**  The dispatcher invokes the parser as
`route.parser(...rpc.args)`: its `this` is the route entry, not
`{ [ctx]: rpc.ctx }`, so a parser that echoes its `ctx` slot observes the
absent slot (`undefined`), not the envelope context `42` — where the spec and
the `conformArgumentsThrough` docstring promise the context. -/
theorem c3_code_evaluation :
    routeFromTransportInfallibly "TypeError" ctxProbeRegistry
      { ctx := 42, id := "s r", args := ([] : List (Option Nat)) }
      = Except.ok (RouteResult.ok (none : Option Nat))
    ∧ routeFromTransportInfallibly "TypeError" ctxProbeRegistry
      { ctx := 42, id := "s r", args := ([] : List (Option Nat)) }
      ≠ Except.ok (RouteResult.ok (some 42)) := by
  have h1 : routeFromTransportInfallibly "TypeError" ctxProbeRegistry
      { ctx := 42, id := "s r", args := ([] : List (Option Nat)) }
      = Except.ok (RouteResult.ok (none : Option Nat)) := rfl
  refine ⟨h1, ?_⟩
  intro h
  rw [h1] at h
  have h2 := Except.ok.inj h
  injection h2 with h3
  exact Option.noConfusion h3

/-- **C4.**  Registering a batch in which some entry's identifier is already
present aborts at that entry with the error naming exactly that identifier:
the registry is left as it was after the earlier entries of the batch (`pre`),
which themselves only extended the previously registered routes — no rollback. -/
theorem c4_duplicate_registration {V C E : Type}
    (routes : List (String × Route V C E)) (scope name : String)
    (pre post : List (String × ParserSpec V C E
      × (Option C → List V → Except E (Except E V))))
    (ps : ParserSpec V C E) (h : Option C → List V → Except E (Except E V))
    (hok : (conformArgumentsThrough routes scope pre).2 = none)
    (hdup : hasRoute (conformArgumentsThrough routes scope pre).1
      (scope ++ " " ++ name) = true) :
    conformArgumentsThrough routes scope (pre ++ (name, ps, h) :: post)
      = ((conformArgumentsThrough routes scope pre).1,
         some ("Route [" ++ (scope ++ " " ++ name)
           ++ "] was declared twice and is not unique."))
    ∧ ∃ added, (conformArgumentsThrough routes scope pre).1 = routes ++ added :=
  ⟨conform_abort pre routes scope name ps h post hok hdup,
   conform_extends pre routes scope⟩

/-- Witness for C4: re-declaring `"s r"` after the scenario registry, behind a
fresh entry `"c"`, aborts with the duplicate error and keeps `"c"`. -/
theorem c4_duplicate_registration_witness :
    conformArgumentsThrough scenarioRegistry "s"
      ([("c", ParserSpec.assumeTypesafe, fun _ _ => Except.ok (Except.ok 0))]
        ++ ("r", ParserSpec.assumeTypesafe,
            fun _ _ => Except.ok (Except.ok (1 : Nat))) :: [])
      = ((conformArgumentsThrough scenarioRegistry "s"
          [("c", ParserSpec.assumeTypesafe, fun _ _ => Except.ok (Except.ok 0))]).1,
         some ("Route [" ++ ("s" ++ " " ++ "r")
           ++ "] was declared twice and is not unique."))
    ∧ ∃ added, (conformArgumentsThrough scenarioRegistry "s"
        [("c", ParserSpec.assumeTypesafe, fun _ _ => Except.ok (Except.ok 0))]).1
        = scenarioRegistry ++ added :=
  c4_duplicate_registration scenarioRegistry "s" "r"
    [("c", ParserSpec.assumeTypesafe, fun _ _ => Except.ok (Except.ok 0))] []
    ParserSpec.assumeTypesafe (fun _ _ => Except.ok (Except.ok 1)) rfl rfl

/-- **C5.**  If the registered parser of the dispatched route throws `e` on the
envelope's arguments, dispatch resolves to the `"argument parsing failed"`
failure carrying exactly `e` — for *every* handler `h` the route may carry, so
the handler is never consulted. -/
theorem c5_parser_failure {V C E : Type} (typeError : E)
    (routes : List (String × Route V C E))
    (rpc : Rpc C V) (p : Option C → List V → Except E (List V))
    (h : Option C → List V → Except E (Except E V)) (e : E)
    (hl : lookupRoute routes rpc.id = some { parser := p, handler := h })
    (hp : p none rpc.args = Except.error e) :
    routeFromTransportInfallibly typeError routes rpc
      = Except.ok (RouteResult.argumentParsingFailed e) := by
  simp [routeFromTransportInfallibly, hl, hp]

/-- Witness for C5 at a registry whose parser always throws `"bad args"`. -/
theorem c5_parser_failure_witness :
    routeFromTransportInfallibly "TypeError" failParserRegistry
      { ctx := (), id := "s r", args := ([] : List Nat) }
      = Except.ok (RouteResult.argumentParsingFailed "bad args") :=
  c5_parser_failure "TypeError" failParserRegistry _
    (fun _ _ => Except.error "bad args")
    (fun _ _ => Except.ok (Except.ok 7)) "bad args" rfl rfl

/-- **C6.**  When the route exists and its parser succeeds: a handler whose
promise rejects with `e` yields the `"handler errored"` failure carrying
exactly `e`; a handler resolving `v` yields the success carrying exactly `v`. -/
theorem c6_handler_outcome {V C E : Type} (typeError : E)
    (routes : List (String × Route V C E))
    (rpc : Rpc C V) (p : Option C → List V → Except E (List V))
    (h : Option C → List V → Except E (Except E V)) (parsed : List V)
    (hl : lookupRoute routes rpc.id = some { parser := p, handler := h })
    (hp : p none rpc.args = Except.ok parsed) :
    (∀ e : E, h (some rpc.ctx) parsed = Except.ok (Except.error e) →
      routeFromTransportInfallibly typeError routes rpc
        = Except.ok (RouteResult.handlerErrored e))
    ∧ (∀ v : V, h (some rpc.ctx) parsed = Except.ok (Except.ok v) →
      routeFromTransportInfallibly typeError routes rpc
        = Except.ok (RouteResult.ok v)) := by
  constructor <;> intro x hx <;> simp [routeFromTransportInfallibly, hl, hp, hx]

/-- Witness for C6: a rejecting handler yields `"handler errored"` with its
value; the spec's scenario handler yields `{ ok: 42 }`. -/
theorem c6_handler_outcome_witness :
    routeFromTransportInfallibly "TypeError" rejectRegistry
      { ctx := (), id := "s r", args := ([] : List Nat) }
      = Except.ok (RouteResult.handlerErrored "boom")
    ∧ routeFromTransportInfallibly "TypeError" scenarioRegistry
      { ctx := (), id := "s r", args := ([] : List Nat) }
      = Except.ok (RouteResult.ok 42) :=
  ⟨(c6_handler_outcome "TypeError" rejectRegistry
      { ctx := (), id := "s r", args := ([] : List Nat) }
      (fun _ args => Except.ok args)
      (fun _ _ => Except.ok (Except.error "boom")) [] rfl rfl).1 "boom" rfl,
   (c6_handler_outcome "TypeError" scenarioRegistry
      { ctx := (), id := "s r", args := ([] : List Nat) }
      (fun _ args => Except.ok args)
      (fun _ _ => Except.ok (Except.ok 42)) [] rfl rfl).2 42 rfl⟩

/-- **C7, counterexample.**  The claim quantifies over *every* envelope whose
identifier is not in the registry, but `this.routes[rpc.id]` on a plain `{}`
traverses the prototype chain: the unregistered id `"toString"` finds the
truthy inherited `Object.prototype.toString`, passes the `!route` guard, and
the call of its absent `parser` property throws a `TypeError` that the
`try`/`catch` converts into `"argument parsing failed"` — not the
non-existent-route failure the claim demands. -/
theorem c7_counterexample :
    lookupRoute scenarioRegistry "toString" = none
    ∧ routeFromTransportInfallibly "TypeError: route.parser is not a function"
        scenarioRegistry { ctx := (), id := "toString", args := ([] : List Nat) }
      = Except.ok (RouteResult.argumentParsingFailed
          "TypeError: route.parser is not a function")
    ∧ routeFromTransportInfallibly "TypeError: route.parser is not a function"
        scenarioRegistry { ctx := (), id := "toString", args := ([] : List Nat) }
      ≠ Except.ok (RouteResult.nonExistentRoute
          "Route [toString] does not exist!") := by
  refine ⟨rfl, rfl, ?_⟩
  intro h
  have h1 : routeFromTransportInfallibly "TypeError: route.parser is not a function"
      scenarioRegistry { ctx := (), id := "toString", args := ([] : List Nat) }
      = Except.ok (RouteResult.argumentParsingFailed
          "TypeError: route.parser is not a function") := rfl
  rw [h1] at h
  have h2 := Except.ok.inj h
  exact RouteResult.noConfusion h2

/-- **C7, amended.**  Dispatching an identifier that is absent from the
registry *and is not an inherited `Object.prototype` property name* resolves
to the `"non existent route"` failure whose message names exactly that
identifier. -/
theorem c7_non_existent_route {V C E : Type} (typeError : E)
    (routes : List (String × Route V C E))
    (rpc : Rpc C V) (habs : lookupRoute routes rpc.id = none)
    (hproto : isProtoKey rpc.id = false) :
    routeFromTransportInfallibly typeError routes rpc
      = Except.ok (RouteResult.nonExistentRoute
          ("Route [" ++ rpc.id ++ "] does not exist!")) := by
  simp [routeFromTransportInfallibly, habs, hproto]

/-- Witness for the amended C7: the spec's §8 scenario — `{ id: "s missing",
args: [], ctx: undefined }` against the registry holding only `"s r"`. -/
theorem c7_non_existent_route_witness :
    routeFromTransportInfallibly "TypeError" scenarioRegistry
      { ctx := (), id := "s missing", args := ([] : List Nat) }
      = Except.ok (RouteResult.nonExistentRoute
          "Route [s missing] does not exist!") :=
  c7_non_existent_route "TypeError" scenarioRegistry
    { ctx := (), id := "s missing", args := ([] : List Nat) } rfl rfl

/-- **C8.**  The wire round trip: decoding (per the receive side's tag loop)
the body and tag header of the request the send side builds for any argument
list recovers every argument — structured values deep-equal via
`JSON.parse ∘ JSON.stringify`, blobs passed through with identical bytes. -/
theorem c8_wire_roundtrip {C : Type} (url : String) (c : C) (id : String)
    (args : List WireValue) :
    decodeArgsFrom id (builtRequest url { ctx := c, id := id, args := args }).argtypeHeader
      (builtRequest url { ctx := c, id := id, args := args }).body 0
      ((builtRequest url { ctx := c, id := id, args := args }).argtypeHeader).data
      = DecodeOut.ok (args.map decodedOf) :=
  decode_encoded args (encodeBodyFrom 0 args) 0 id
    (String.mk (args.map argTag))
    (fun k => formGet_encodeBodyFrom args 0 k)

/-- **C9.**  The constructed HTTP request — URL, method, the three headers and
the multipart body — is a function of `id` and `args` only: two envelopes
differing only in `ctx` build identical requests, and the whole send operation
behaves identically on them against any network. -/
theorem c9_ctx_not_serialized {C : Type} (url : String) (c1 c2 : C) (id : String)
    (args : List WireValue) :
    builtRequest url { ctx := c1, id := id, args := args }
      = builtRequest url { ctx := c2, id := id, args := args }
    ∧ ∀ doFetch : HttpRequest → FetchResponse,
      sendThroughTransportFallibly url doFetch { ctx := c1, id := id, args := args }
        = sendThroughTransportFallibly url doFetch { ctx := c2, id := id, args := args } :=
  ⟨rfl, fun _ => rfl⟩

/-- **C10.**  The receive side reads exactly one part per tag character:
appending parts at positions at or beyond the tag string's length changes
nothing about the call's outcome, and a successful decode hands the dispatcher
exactly one argument per tag character. -/
theorem c10_extra_parts_ignored {C E : Type}
    (route : C → String → List DecodedArg → DispatchAnswer E) (c : C)
    (id ts : String) (form : List (String × Part)) (extra : List (Nat × Part))
    (hextra : ∀ p ∈ extra, ts.length ≤ p.1) :
    onRequestInfallibly route
      { idHeader := some id, argtypeHeader := some ts,
        formData := Except.ok (form ++ extra.map (fun e => (natKey e.1, e.2))) } c
      = onRequestInfallibly route
        { idHeader := some id, argtypeHeader := some ts,
          formData := Except.ok form } c
    ∧ ∀ args : List DecodedArg,
      decodeArgsFrom id ts form 0 ts.data = DecodeOut.ok args →
        args.length = ts.length := by
  have hlen : ts.length = ts.data.length := rfl
  constructor
  · have hdec : decodeArgsFrom id ts (form ++ extra.map (fun e => (natKey e.1, e.2)))
        0 ts.data = decodeArgsFrom id ts form 0 ts.data := by
      apply decodeArgsFrom_congr
      intro k hk
      rw [Nat.zero_add]
      apply formGet_append_of_ne
      intro e he
      obtain ⟨⟨p, part⟩, hpe, rfl⟩ := List.mem_map.mp he
      intro hkey
      have hpk := natKey_injective hkey
      have hle := hextra (p, part) hpe
      simp only at hle
      omega
    simp only [onRequestInfallibly, hdec]
  · intro args h
    have := decode_ok_length ts.data 0 form id ts args h
    omega

/-- Witness for C10: one `j` tag, a part at position 0, an extra part at
position 1 — the extra part changes nothing. -/
theorem c10_extra_parts_ignored_witness :
    onRequestInfallibly constRoute
      { idHeader := some "s r", argtypeHeader := some "j",
        formData := Except.ok ([("0", Part.text "5")]
          ++ ([((1 : Nat), Part.text "9")]).map (fun e => (natKey e.1, e.2))) } ()
      = onRequestInfallibly constRoute
        { idHeader := some "s r", argtypeHeader := some "j",
          formData := Except.ok [("0", Part.text "5")] } () :=
  (c10_extra_parts_ignored constRoute () "s r" "j" [("0", Part.text "5")]
    [((1 : Nat), Part.text "9")] (by decide)).1

end Simplycall
